import Mathlib

/-!
Shallow embedding of `src/src/libs/actions/ReportActions.js`:
a report-action cache (mirror plus max-sequence-number index maintained by an
Onyx subscription callback), three derived-view queries and two optimistic
mutation operations that emit Onyx merge patches.

Modelling conventions, matching the JavaScript semantics of the fragment:
- a JS object field that may be `undefined`/`null` is an `Option`;
- a per-report action collection (a JS object keyed by stringified sequence
  numbers) delivered to the callback is modelled as the ordered list of its
  values, the order `_.toArray` would produce;
- `_.findLastIndex` returns `-1` when nothing matches, and indexing a JS array
  at `-1` yields `undefined`; we keep the integer index and model indexing by
  `intGet`;
- in JS, `undefined <= n` is `false`, so an action without a `sequenceNumber`
  is never skipped by the `action.sequenceNumber <= sequenceNumber` test
  (`jsLeOpt` below);
- `lodashMerge({}, existing, overlay)` never mutates `existing`; its result is
  ordered by ascending integer-like key, with the `"undefined"` key (actions
  lacking a `sequenceNumber`) iterated last;
- `Onyx.merge` patches are field-level merges in which a `null` collection
  entry deletes that entry and arrays are replaced wholesale.
-/

/-- A message part of a report action: a JS object with an `html` field that
may be absent or null (both modelled as `none`). -/
structure MessagePart where
  html : Option String
  deriving DecidableEq, Repr

/-- One entry of a report's action log, with the fields the fragment reads.
Every field may be absent in JS; absent and null are both `none`. -/
structure ReportAction where
  sequenceNumber : Option Nat
  actionName : Option String
  message : Option (List MessagePart)
  pendingAction : Option String
  errors : Option String
  isLoading : Option Bool
  deriving DecidableEq, Repr

/-- A partial report action, as found in an overlay patch or an Onyx merge
patch: each field is either absent from the patch (`none`), explicitly set to
null (`some none`), or set to a value (`some (some v)`). -/
structure ActionPatch where
  sequenceNumber : Option (Option Nat) := none
  actionName : Option (Option String) := none
  message : Option (Option (List MessagePart)) := none
  pendingAction : Option (Option String) := none
  errors : Option (Option String) := none
  isLoading : Option (Option Bool) := none
  deriving DecidableEq, Repr

/-- An overlay (`actionsToMerge`): a mapping from sequence number to a partial
action, modelled as an association list (later bindings win, as for duplicate
keys in a JS object literal). -/
abbrev Overlay := List (Nat × ActionPatch)

/-- The module-level mutable state of the fragment: the action-log mirror
`reportActions` and the sequence index `reportActionsMaxSequenceNumbers`,
both keyed by report id. `none` means no entry exists for that report. -/
structure CoreState where
  reportActions : String → Option (List ReportAction)
  reportActionsMaxSequenceNumbers : String → Option Nat

/-- The external collaborators consumed by the fragment, abstracted at their
interface boundary: `ReportActionsUtils.isDeletedAction`,
`ExpensiMark.htmlToText`, `ReportUtils.formatReportLastMessageText` and
`CollectionUtils.extractCollectionItemID`. -/
structure Externals where
  isDeletedAction : ReportAction → Bool
  htmlToText : String → String
  formatReportLastMessageText : String → String
  extractCollectionItemID : String → String

/-- The constant `CONST.REPORT.ACTIONS.TYPE.ADDCOMMENT`. -/
def ADDCOMMENT : String := "ADDCOMMENT"

/-- The constant `CONST.RED_BRICK_ROAD_PENDING_ACTION.ADD`. -/
def PENDING_ACTION_ADD : String := "add"

/-- The collection key stem `ONYXKEYS.COLLECTION.REPORT_ACTIONS`; the literal
stands in for the constant imported from `ONYXKEYS`. -/
def REPORT_ACTIONS_COLLECTION_KEY : String := "reportActions_"

/-- JS truthiness of an optional boolean field such as `isLoading`:
only `some true` is truthy. -/
def jsTruthy (o : Option Bool) : Bool :=
  o.getD false

/-- The JS comparison `x <= t` when `x` may be `undefined`: comparing
`undefined` with a number is `false`. -/
def jsLeOpt (x : Option Nat) (t : Nat) : Bool :=
  match x with
  | none => false
  | some v => decide (v ≤ t)

/-- `_.findLastIndex(xs, p)`: the index of the last element satisfying `p`,
or `-1` when none does. -/
def findLastIndex (p : α → Bool) : List α → Int
  | [] => -1
  | x :: xs =>
    let r := findLastIndex p xs
    if 0 ≤ r then r + 1 else if p x then 0 else -1

/-- JS array indexing `xs[i]` at a possibly negative integer index:
`undefined` when out of range. -/
def intGet (xs : List α) (i : Int) : Option α :=
  if 0 ≤ i then xs.get? i.toNat else none

/-- The html of an action's first message part, with the lodashGet defaults of
the fragment: `''` when the action has no `message`, an empty `message`, or a
first part without `html`.  This is the value of
`lodashGet(_.first(lodashGet(action, 'message', null)), 'html', '')` and of
`lodashGet(actions, [i, 'message', 0, 'html'], '')` at an in-range index. -/
def firstPartHtml (a : ReportAction) : String :=
  match a.message with
  | none => ""
  | some parts =>
    match parts.head? with
    | none => ""
    | some part => part.html.getD ""

/-- Update of a keyed map entry, as JS assignment `m[k] = v`. -/
def setFun (f : String → Option β) (k : String) (v : β) : String → Option β :=
  fun x => if x = k then some v else f x

/-- The `Onyx.connect` subscription callback (lines 28-46): a no-op when the
key or the delivered collection is falsy; otherwise it replaces the mirror
entry for the extracted report id wholesale and, when the last non-loading
action exists and carries a `sequenceNumber`, assigns the sequence index. -/
def onyxConnectCallback (ext : Externals) (st : CoreState)
    (actions : Option (List ReportAction)) (key : Option String) : CoreState :=
  match key, actions with
  | some k, some acts =>
    if k = "" then st
    else
      let reportID := ext.extractCollectionItemID k
      let st1 : CoreState := { st with reportActions := setFun st.reportActions reportID acts }
      match intGet acts (findLastIndex (fun a => ! jsTruthy a.isLoading) acts) with
      | none => st1
      | some mostRecentAction =>
        match mostRecentAction.sequenceNumber with
        | none => st1
        | some n =>
          { st1 with
            reportActionsMaxSequenceNumbers :=
              setFun st1.reportActionsMaxSequenceNumbers reportID n }
  | _, _ => st

/-- One step of the `_.reduce` in `getDeletedCommentsCount` (lines 59-68). -/
def deletedCommentStep (threshold : Nat) (n : Nat) (a : ReportAction) : Nat :=
  if a.actionName ≠ some ADDCOMMENT ∨ jsLeOpt a.sequenceNumber threshold = true then n
  else if firstPartHtml a = "" then n + 1 else n

/-- `getDeletedCommentsCount(reportID, sequenceNumber)` (lines 54-69). -/
def getDeletedCommentsCount (st : CoreState) (reportID : String) (sequenceNumber : Nat) : Nat :=
  match st.reportActions reportID with
  | none => 0
  | some acts => acts.foldl (deletedCommentStep sequenceNumber) 0

/-- Merge of one patch field over a base field, as `lodashMerge` on scalar
fields: an absent patch field keeps the base, a present one (null included)
is assigned. -/
def patchField (base : Option β) (p : Option (Option β)) : Option β :=
  match p with
  | none => base
  | some v => v

/-- Element-wise merge of message-part arrays, as `lodashMerge` merges arrays
index by index; a patch part's absent `html` keeps the base part's. -/
def mergePartLists : List MessagePart → List MessagePart → List MessagePart
  | base, [] => base
  | [], ps => ps
  | b :: bs, p :: ps =>
    { html := match p.html with | some h => some h | none => b.html } :: mergePartLists bs ps

/-- `lodashMerge` of a patch into a full action: scalar fields by
`patchField`, the `message` array element-wise. -/
def applyLodashPatch (b : ReportAction) (p : ActionPatch) : ReportAction :=
  { sequenceNumber := patchField b.sequenceNumber p.sequenceNumber
    actionName := patchField b.actionName p.actionName
    message :=
      match p.message with
      | none => b.message
      | some none => none
      | some (some ps) => some (mergePartLists (b.message.getD []) ps)
    pendingAction := patchField b.pendingAction p.pendingAction
    errors := patchField b.errors p.errors
    isLoading := patchField b.isLoading p.isLoading }

/-- Materialisation of a patch merged into an empty object (`lodashMerge`
when the key only occurs in the overlay). -/
def patchToAction (p : ActionPatch) : ReportAction :=
  { sequenceNumber := p.sequenceNumber.join
    actionName := p.actionName.join
    message := p.message.join
    pendingAction := p.pendingAction.join
    errors := p.errors.join
    isLoading := p.isLoading.join }

/-- `_.indexBy(actions, 'sequenceNumber')` looked up at a numeric key:
the last action with that sequence number wins. -/
def lookupMirror (mirror : List ReportAction) (k : Nat) : Option ReportAction :=
  (mirror.filter (fun a => a.sequenceNumber = some k)).getLast?

/-- The overlay looked up at a numeric key: the last binding wins, as for
duplicate keys of a JS object literal. -/
def overlayAt (ov : Overlay) (k : Nat) : Option ActionPatch :=
  ((ov.filter (fun e => e.1 = k)).getLast?).map (fun e => e.2)

/-- The entry of `lodashMerge({}, existingReportActions, actionsToMerge)` at
a numeric key. -/
def mergedAt (mirror : List ReportAction) (ov : Overlay) (k : Nat) : Option ReportAction :=
  match lookupMirror mirror k, overlayAt ov k with
  | some b, some p => some (applyLodashPatch b p)
  | some b, none => some b
  | none, some p => some (patchToAction p)
  | none, none => none

/-- Insertion into a sorted duplicate-free list of keys. -/
def insertSortedKey (k : Nat) : List Nat → List Nat
  | [] => [k]
  | x :: xs =>
    if k < x then k :: x :: xs
    else if k = x then x :: xs
    else x :: insertSortedKey k xs

/-- Ascending duplicate-free ordering of a key multiset, the iteration order
of integer-like keys of a JS object. -/
def sortedKeys (ks : List Nat) : List Nat :=
  ks.foldr insertSortedKey []

/-- The `"undefined"` slot of `_.indexBy(actions, 'sequenceNumber')`: the last
action lacking a sequence number, iterated after all integer-like keys. -/
def undefinedSlot (mirror : List ReportAction) : Option ReportAction :=
  (mirror.filter (fun a => a.sequenceNumber = none)).getLast?

/-- `_.toArray(lodashMerge({}, _.indexBy(mirror, 'sequenceNumber'), overlay))`:
the merged per-sequence-number view flattened in JS object iteration order
(ascending numeric keys, then the `"undefined"` slot). -/
def getMergedActions (mirror : List ReportAction) (ov : Overlay) : List ReportAction :=
  (sortedKeys ((mirror.filterMap (fun a => a.sequenceNumber)) ++ ov.map (fun e => e.1))).filterMap
      (mergedAt mirror ov)
    ++ (undefinedSlot mirror).toList

/-- `getLastVisibleReportAction(reportID, actionsToMerge)` (lines 95-102). -/
def getLastVisibleReportAction (ext : Externals) (st : CoreState) (reportID : String)
    (actionsToMerge : Overlay) : Option ReportAction :=
  let actions := getMergedActions ((st.reportActions reportID).getD []) actionsToMerge
  intGet actions (findLastIndex (fun a => ! ext.isDeletedAction a) actions)

/-- `getLastVisibleMessageText(reportID, actionsToMerge)` (lines 77-87). -/
def getLastVisibleMessageText (ext : Externals) (st : CoreState) (reportID : String)
    (actionsToMerge : Overlay) : String :=
  let actions := getMergedActions ((st.reportActions reportID).getD []) actionsToMerge
  let lastMessageIndex := findLastIndex (fun a => ! ext.isDeletedAction a) actions
  let htmlText := ((intGet actions lastMessageIndex).map firstPartHtml).getD ""
  ext.formatReportLastMessageText (ext.htmlToText htmlText)

/-- A single `Onyx.merge` call: the store key and the patch, mapping sequence
numbers to either an explicit null (`none`, deleting the entry) or a partial
action to merge. -/
structure OnyxMergeOp where
  key : String
  patch : List (Nat × Option ActionPatch)
  deriving DecidableEq, Repr

/-- `Onyx.merge` of a single patch field set into an existing entry: scalar
fields assigned when present, arrays (the `message` field) replaced wholesale. -/
def applyOnyxActionPatch (b : ReportAction) (p : ActionPatch) : ReportAction :=
  { sequenceNumber := patchField b.sequenceNumber p.sequenceNumber
    actionName := patchField b.actionName p.actionName
    message := patchField b.message p.message
    pendingAction := patchField b.pendingAction p.pendingAction
    errors := patchField b.errors p.errors
    isLoading := patchField b.isLoading p.isLoading }

/-- The effect of an `Onyx.merge` patch on a per-report collection: a null
entry deletes that sequence number, a partial action merges into the existing
entry (or materialises when none exists). -/
def applyOnyxMergePatch (col : Nat → Option ReportAction)
    (patch : List (Nat × Option ActionPatch)) : Nat → Option ReportAction :=
  patch.foldl
    (fun c kp => fun n =>
      if n = kp.1 then
        match kp.2 with
        | none => none
        | some ap =>
          match c kp.1 with
          | some b => some (applyOnyxActionPatch b ap)
          | none => some (patchToAction ap)
      else c n)
    col

/-- `updateReportActionMessage(reportID, sequenceNumber, message)`
(lines 109-116): the single `Onyx.merge` call it issues.  The `.then`
continuation holds only the commented-out last-read/unread branch and
performs nothing. -/
def updateReportActionMessage (reportID : String) (sequenceNumber : Nat)
    (message : MessagePart) : OnyxMergeOp :=
  { key := REPORT_ACTIONS_COLLECTION_KEY ++ reportID
    patch := [(sequenceNumber, some { message := some (some [message]) })] }

/-- `deleteOptimisticReportAction(reportID, sequenceNumber, pendingAction)`
(lines 123-136): the single `Onyx.merge` call it issues. -/
def deleteOptimisticReportAction (reportID : String) (sequenceNumber : Nat)
    (pendingAction : Option String) : OnyxMergeOp :=
  if pendingAction = some PENDING_ACTION_ADD then
    { key := REPORT_ACTIONS_COLLECTION_KEY ++ reportID
      patch := [(sequenceNumber, none)] }
  else
    { key := REPORT_ACTIONS_COLLECTION_KEY ++ reportID
      patch := [(sequenceNumber, some { pendingAction := some none, errors := some none })] }

/-- Stateful wrapper of `getLastVisibleMessageText`: the query builds its
merged view inside `lodashMerge({}, ...)`, a fresh copy, so the module state
is returned unchanged. -/
def runQueryLastText (ext : Externals) (st : CoreState) (reportID : String)
    (actionsToMerge : Overlay) : String × CoreState :=
  (getLastVisibleMessageText ext st reportID actionsToMerge, st)

/-- Stateful wrapper of `getLastVisibleReportAction`; as for
`runQueryLastText`, the module state is returned unchanged. -/
def runQueryLastAction (ext : Externals) (st : CoreState) (reportID : String)
    (actionsToMerge : Overlay) : Option ReportAction × CoreState :=
  (getLastVisibleReportAction ext st reportID actionsToMerge, st)

/-- One operation of the core's exposed surface (the subscription callback,
the three queries, and the two mutations). -/
inductive CoreOp where
  | storeCallback : Option (List ReportAction) → Option String → CoreOp
  | deletedCount : String → Nat → CoreOp
  | lastText : String → Overlay → CoreOp
  | lastAction : String → Overlay → CoreOp
  | updateMessage : String → Nat → MessagePart → CoreOp
  | deleteOptimistic : String → Nat → Option String → CoreOp

/-- Effect of one operation on the module-level state.  Queries read the
state; the two mutations only emit an `Onyx.merge` call, never touching the
local maps directly. -/
def applyOp (ext : Externals) (st : CoreState) : CoreOp → CoreState
  | CoreOp.storeCallback acts key => onyxConnectCallback ext st acts key
  | CoreOp.deletedCount _ _ => st
  | CoreOp.lastText r ov => (runQueryLastText ext st r ov).2
  | CoreOp.lastAction r ov => (runQueryLastAction ext st r ov).2
  | CoreOp.updateMessage _ _ _ => st
  | CoreOp.deleteOptimistic _ _ _ => st

/-- Modelled from the spec: the deleted-comment test as the claim words it —
an `AddComment` action whose `sequenceNumber` is strictly greater than the
threshold and whose message's first part has empty/blank html (the defaulted
lookup `firstPartHtml`). -/
def claimDeletedCondition (threshold : Nat) (a : ReportAction) : Bool :=
  decide (a.actionName = some ADDCOMMENT)
    && (match a.sequenceNumber with
        | some s => decide (threshold < s)
        | none => false)
    && decide (firstPartHtml a = "")

/-- Modelled from the spec: the count of deleted comments as the claim words
it (see `claimDeletedCondition`); 0 when the report has no mirrored actions. -/
def claimDeletedCommentsCount (st : CoreState) (reportID : String) (threshold : Nat) : Nat :=
  (((st.reportActions reportID).getD []).filter (claimDeletedCondition threshold)).length

/-- The deleted-comment test the code actually applies: as
`claimDeletedCondition` except that an action with an absent `sequenceNumber`
also passes the threshold test, because the JS skip test `undefined <= n` is
false. -/
def amendedDeletedCondition (threshold : Nat) (a : ReportAction) : Bool :=
  decide (a.actionName = some ADDCOMMENT)
    && (match a.sequenceNumber with
        | some s => decide (threshold < s)
        | none => true)
    && decide (firstPartHtml a = "")

/-- Modelled from the spec: the last visible action as §4.3 words it — merge
the overlay, then take the last merged action not classified deleted by the
external predicate. -/
def specLastVisibleAction (ext : Externals) (mirror : List ReportAction)
    (ov : Overlay) : Option ReportAction :=
  (getMergedActions mirror ov).reverse.find? (fun a => ! ext.isDeletedAction a)

/-- Modelled from the spec: the last visible message text as §4.3 words it —
the html of the last visible action's first message part (empty string if
none), converted and then formatted; with no visible action the converter's
input is the empty string. -/
def specLastVisibleMessageText (ext : Externals) (st : CoreState) (reportID : String)
    (ov : Overlay) : String :=
  match specLastVisibleAction ext ((st.reportActions reportID).getD []) ov with
  | some a => ext.formatReportLastMessageText (ext.htmlToText (firstPartHtml a))
  | none => ext.formatReportLastMessageText (ext.htmlToText "")

/-- The entry a non-`Add` `deleteOptimisticReportAction` merge leaves at the
targeted sequence number: the existing action with `pendingAction` and
`errors` cleared to null (a fresh all-null entry when none existed). -/
def clearedEntry : Option ReportAction → ReportAction
  | some b => { b with pendingAction := none, errors := none }
  | none => ⟨none, none, none, none, none, none⟩

/-- The entry an `updateReportActionMessage` merge leaves at the targeted
sequence number: the existing action with `message` replaced by the
single-element sequence (a fresh entry carrying only that message when none
existed). -/
def mergedMessageEntry (o : Option ReportAction) (m : MessagePart) : ReportAction :=
  match o with
  | some b => { b with message := some [m] }
  | none => ⟨none, none, some [m], none, none, none⟩

/-- Concrete externals for counterexamples and witnesses: identity
collaborators and the tombstone-by-emptiness predicate. -/
def sampleExternals : Externals :=
  { isDeletedAction := fun a => firstPartHtml a = ""
    htmlToText := id
    formatReportLastMessageText := id
    extractCollectionItemID := id }

/-- A mirrored `AddComment` action with no `sequenceNumber` and no message. -/
def strayAddComment : ReportAction :=
  ⟨none, some ADDCOMMENT, none, none, none, none⟩

/-- Concrete state whose report `"1"` mirrors only `strayAddComment`. -/
def strayState : CoreState :=
  { reportActions := fun x => if x = "1" then some [strayAddComment] else none
    reportActionsMaxSequenceNumbers := fun _ => none }

/-- A committed action at sequence number 5. -/
def committedAt5 : ReportAction :=
  ⟨some 5, none, none, none, none, none⟩

/-- A non-loading action with no `sequenceNumber` at the end of the log. -/
def seqlessTail : ReportAction :=
  ⟨none, none, none, none, none, none⟩

/-- Concrete delivered collection ending in a non-loading action without a
`sequenceNumber`, while an earlier non-loading action has one. -/
def seqlessTailActs : List ReportAction :=
  [committedAt5, seqlessTail]

/-- Concrete state whose sequence index holds 3 for report `"r"`. -/
def indexAt3State : CoreState :=
  { reportActions := fun _ => none
    reportActionsMaxSequenceNumbers := fun x => if x = "r" then some 3 else none }

/-! Helper lemmas bridging the integer-index idiom of `_.findLastIndex` with
last-match search on the reversed list. -/

theorem findLastIndex_lt_length (p : α → Bool) (xs : List α) :
    findLastIndex p xs < (xs.length : Int) := by
  induction xs with
  | nil => simp [findLastIndex]
  | cons x xs ih =>
    simp only [findLastIndex, List.length_cons]
    by_cases h : 0 ≤ findLastIndex p xs
    · simp only [h, if_true]
      push_cast
      omega
    · simp only [h, if_false]
      split <;> push_cast <;> omega

theorem intGet_findLastIndex (p : α → Bool) (xs : List α) :
    intGet xs (findLastIndex p xs) = xs.reverse.find? p := by
  induction xs with
  | nil => simp [intGet, findLastIndex]
  | cons x xs ih =>
    rw [List.reverse_cons, List.find?_append]
    simp only [findLastIndex]
    by_cases h : 0 ≤ findLastIndex p xs
    · simp only [h, if_true]
      have hlt := findLastIndex_lt_length p xs
      have hsome : ∃ y, xs.reverse.find? p = some y := by
        rw [← ih]
        unfold intGet
        rw [if_pos h]
        have hl : (findLastIndex p xs).toNat < xs.length := by omega
        exact ⟨_, List.get?_eq_get hl⟩
      rcases hsome with ⟨y, hy⟩
      rw [hy]
      have hT : (findLastIndex p xs + 1).toNat = (findLastIndex p xs).toNat + 1 := by omega
      unfold intGet
      rw [if_pos (by omega), hT, List.get?_cons_succ]
      have := ih
      unfold intGet at this
      rw [if_pos h] at this
      rw [this, hy]
      rfl
    · have hnone : xs.reverse.find? p = none := by
        rw [← ih]
        unfold intGet
        rw [if_neg h]
      rw [hnone]
      simp only [h, if_false]
      by_cases hp : p x
      · simp [intGet, hp, List.find?]
      · simp [intGet, hp, List.find?]

theorem deletedCommentStep_eq (t n : Nat) (a : ReportAction) :
    deletedCommentStep t n a = if amendedDeletedCondition t a = true then n + 1 else n := by
  cases hs : a.sequenceNumber with
  | none =>
    by_cases h1 : a.actionName = some ADDCOMMENT <;>
      by_cases h2 : firstPartHtml a = "" <;>
        simp [deletedCommentStep, amendedDeletedCondition, jsLeOpt, hs, h1, h2]
  | some s =>
    by_cases h3 : s ≤ t
    · have h4 : ¬ t < s := by omega
      by_cases h1 : a.actionName = some ADDCOMMENT <;>
        by_cases h2 : firstPartHtml a = "" <;>
          simp [deletedCommentStep, amendedDeletedCondition, jsLeOpt, hs, h1, h2, h3, h4]
    · have h4 : t < s := by omega
      by_cases h1 : a.actionName = some ADDCOMMENT <;>
        by_cases h2 : firstPartHtml a = "" <;>
          simp [deletedCommentStep, amendedDeletedCondition, jsLeOpt, hs, h1, h2, h3, h4]

theorem foldl_deletedCommentStep (t : Nat) (acts : List ReportAction) (n : Nat) :
    acts.foldl (deletedCommentStep t) n
      = n + (acts.filter (amendedDeletedCondition t)).length := by
  induction acts generalizing n with
  | nil => simp
  | cons a as ih =>
    rw [List.foldl_cons, deletedCommentStep_eq, List.filter_cons]
    by_cases hc : amendedDeletedCondition t a = true
    · rw [if_pos hc, if_pos hc, ih]
      simp only [List.length_cons]
      omega
    · rw [if_neg hc, if_neg hc, ih]

theorem getDeletedCommentsCount_eq_filter (st : CoreState) (r : String) (t : Nat) :
    getDeletedCommentsCount st r t
      = (((st.reportActions r).getD []).filter (amendedDeletedCondition t)).length := by
  unfold getDeletedCommentsCount
  cases h : st.reportActions r <;> simp [h, foldl_deletedCommentStep]

theorem lastVisibleReportAction_eq_spec (ext : Externals) (st : CoreState) (r : String)
    (ov : Overlay) :
    getLastVisibleReportAction ext st r ov
      = specLastVisibleAction ext ((st.reportActions r).getD []) ov :=
  intGet_findLastIndex _ _

theorem lastVisibleMessageText_eq_spec (ext : Externals) (st : CoreState) (r : String)
    (ov : Overlay) :
    getLastVisibleMessageText ext st r ov = specLastVisibleMessageText ext st r ov := by
  unfold getLastVisibleMessageText specLastVisibleMessageText specLastVisibleAction
  simp only [intGet_findLastIndex]
  cases h : (getMergedActions ((st.reportActions r).getD []) ov).reverse.find?
      (fun a => ! ext.isDeletedAction a) <;>
    simp [h]

theorem applyOp_preserves_index (ext : Externals) (st : CoreState) (op : CoreOp) (r : String)
    (h : (st.reportActionsMaxSequenceNumbers r).isSome = true) :
    ((applyOp ext st op).reportActionsMaxSequenceNumbers r).isSome = true := by
  cases op with
  | storeCallback acts key =>
    cases key with
    | none => cases acts <;> exact h
    | some k =>
      cases acts with
      | none => exact h
      | some l =>
        simp only [applyOp, onyxConnectCallback]
        by_cases hk : k = ""
        · rw [if_pos hk]; exact h
        · rw [if_neg hk]
          split
          · exact h
          · split
            · exact h
            · simp only [setFun]
              by_cases hr : r = ext.extractCollectionItemID k <;> simp [hr, h]
  | deletedCount r' t => exact h
  | lastText r' ov => exact h
  | lastAction r' ov => exact h
  | updateMessage r' s m => exact h
  | deleteOptimistic r' s p => exact h

theorem foldl_applyOp_preserves_index (ext : Externals) (ops : List CoreOp) (st : CoreState)
    (r : String) (h : (st.reportActionsMaxSequenceNumbers r).isSome = true) :
    ((ops.foldl (applyOp ext) st).reportActionsMaxSequenceNumbers r).isSome = true := by
  induction ops generalizing st with
  | nil => exact h
  | cons op ops ih => exact ih _ (applyOp_preserves_index ext st op r h)

/-! The claims. -/

/-- C1 counterexample: a mirrored `AddComment` action with an absent
`sequenceNumber` and no message is counted by `getDeletedCommentsCount`
(the JS skip test `undefined <= 0` is false), although it is not an action
whose `sequenceNumber` is strictly greater than the threshold, so the count
the claim describes is 0 while the code returns 1. -/
theorem c1_counterexample :
    getDeletedCommentsCount strayState "1" 0 = 1
      ∧ claimDeletedCommentsCount strayState "1" 0 = 0 := by
  constructor <;> decide

/-- C1 (amended): `getDeletedCommentsCount(reportID, sequenceNumber)` returns
the number of mirrored `AddComment` actions whose `sequenceNumber` is strictly
greater than the threshold **or absent** and whose message's first part has
empty (or defaulted-to-empty) html; other actions never contribute, and the
result is 0 whenever the report has no mirrored actions. -/
theorem c1_deletedCommentsCount (st : CoreState) (r : String) (t : Nat) :
    getDeletedCommentsCount st r t
      = (((st.reportActions r).getD []).filter (amendedDeletedCondition t)).length :=
  getDeletedCommentsCount_eq_filter st r t

/-- C2: `getLastVisibleMessageText` merges the overlay onto the mirrored
actions keyed by `sequenceNumber`, scans from the end for the last action not
classified deleted by the external predicate, extracts its first message
part's html (empty string if none), converts it through the markup-to-text
collaborator and applies the last-message formatter; with no visible action
the converter's input is the empty string. -/
theorem c2_lastVisibleMessageText (ext : Externals) (st : CoreState) (r : String)
    (ov : Overlay) :
    getLastVisibleMessageText ext st r ov = specLastVisibleMessageText ext st r ov :=
  lastVisibleMessageText_eq_spec ext st r ov

/-- C3 counterexample: a delivered collection containing a non-loading action
with a present `sequenceNumber` (so the claim's hypothesis holds) whose last
non-loading action nevertheless lacks a `sequenceNumber`: the callback leaves
the prior index value 3 in place, which differs from that last action's
(absent) sequence number. -/
theorem c3_counterexample :
    (committedAt5 ∈ seqlessTailActs ∧ jsTruthy committedAt5.isLoading = false
        ∧ committedAt5.sequenceNumber.isSome = true)
      ∧ seqlessTailActs.reverse.find? (fun a => ! jsTruthy a.isLoading) = some seqlessTail
      ∧ seqlessTail.sequenceNumber = none
      ∧ (onyxConnectCallback sampleExternals indexAt3State (some seqlessTailActs)
            (some "r")).reportActionsMaxSequenceNumbers
          (sampleExternals.extractCollectionItemID "r") = some 3
      ∧ (onyxConnectCallback sampleExternals indexAt3State (some seqlessTailActs)
            (some "r")).reportActionsMaxSequenceNumbers
          (sampleExternals.extractCollectionItemID "r") ≠ seqlessTail.sequenceNumber := by
  refine ⟨⟨?_, ?_, ?_⟩, ?_, ?_, ?_, ?_⟩ <;> decide

/-- C3 (amended): after a subscription callback delivers, for a report, an
action collection whose **last** non-loading action (in log order) carries a
present `sequenceNumber`, the Sequence Index entry for that report equals that
action's `sequenceNumber`. -/
theorem c3_sequenceIndex (ext : Externals) (st : CoreState) (k : String)
    (acts : List ReportAction) (a : ReportAction) (n : Nat)
    (hk : k ≠ "")
    (hfind : acts.reverse.find? (fun x => ! jsTruthy x.isLoading) = some a)
    (hseq : a.sequenceNumber = some n) :
    (onyxConnectCallback ext st (some acts) (some k)).reportActionsMaxSequenceNumbers
      (ext.extractCollectionItemID k) = some n := by
  simp only [onyxConnectCallback]
  rw [if_neg hk]
  simp only [intGet_findLastIndex, hfind, hseq, setFun]
  simp

/-- C3 witness: the amended theorem at a concrete delivery. -/
theorem c3_sequenceIndex_witness :
    ("r" : String) ≠ ""
      ∧ [committedAt5].reverse.find? (fun x => ! jsTruthy x.isLoading) = some committedAt5
      ∧ committedAt5.sequenceNumber = some 5
      ∧ (onyxConnectCallback sampleExternals indexAt3State (some [committedAt5])
            (some "r")).reportActionsMaxSequenceNumbers
          (sampleExternals.extractCollectionItemID "r") = some 5 :=
  ⟨by decide, by decide, by decide,
    c3_sequenceIndex sampleExternals indexAt3State "r" [committedAt5] committedAt5 5
      (by decide) (by decide) (by decide)⟩

/-- C4: `deleteOptimisticReportAction` with `pendingAction = Add` issues a
merge patch mapping the sequence number to null, which removes the entry from
the collection entirely; with any other `pendingAction` it issues a merge
patch clearing the entry's `pendingAction` and `errors` to null, leaving the
entry present. -/
theorem c4_deleteOptimisticReportAction (r : String) (s : Nat) (p : Option String)
    (col : Nat → Option ReportAction) (n : Nat) :
    (p = some PENDING_ACTION_ADD →
        (deleteOptimisticReportAction r s p).patch = [(s, none)]
          ∧ applyOnyxMergePatch col (deleteOptimisticReportAction r s p).patch n
              = (if n = s then none else col n))
      ∧ (p ≠ some PENDING_ACTION_ADD →
          applyOnyxMergePatch col (deleteOptimisticReportAction r s p).patch n
            = (if n = s then some (clearedEntry (col s)) else col n)) := by
  constructor
  · intro hp
    refine ⟨by simp [deleteOptimisticReportAction, hp], ?_⟩
    simp only [deleteOptimisticReportAction, if_pos hp, applyOnyxMergePatch, List.foldl]
  · intro hp
    simp only [deleteOptimisticReportAction, if_neg hp, applyOnyxMergePatch, List.foldl]
    by_cases hn : n = s
    · rw [if_pos hn, if_pos hn]
      cases hcs : col s <;>
        simp [hcs, applyOnyxActionPatch, patchToAction, clearedEntry, patchField]
    · rw [if_neg hn, if_neg hn]

/-- C4 witness: both branches at concrete inputs. -/
theorem c4_deleteOptimisticReportAction_witness :
    ((deleteOptimisticReportAction "1" 3 (some PENDING_ACTION_ADD)).patch = [(3, none)]
        ∧ applyOnyxMergePatch (fun _ => none)
            (deleteOptimisticReportAction "1" 3 (some PENDING_ACTION_ADD)).patch 3
          = (if 3 = 3 then none else none))
      ∧ applyOnyxMergePatch (fun _ => none)
          (deleteOptimisticReportAction "1" 3 (some "update")).patch 3
        = (if 3 = 3 then some (clearedEntry none) else none) :=
  ⟨(c4_deleteOptimisticReportAction "1" 3 (some PENDING_ACTION_ADD) (fun _ => none) 3).1 rfl,
    (c4_deleteOptimisticReportAction "1" 3 (some "update") (fun _ => none) 3).2 (by decide)⟩

/-- C5: the action returned by `getLastVisibleReportAction`, with its first
message part's html (empty string if none) converted through the markup
collaborator and the last-message formatter, is exactly the string
`getLastVisibleMessageText` returns for the same report and overlay. -/
theorem c5_queries_agree (ext : Externals) (st : CoreState) (r : String) (ov : Overlay) :
    getLastVisibleMessageText ext st r ov
      = ext.formatReportLastMessageText (ext.htmlToText
          (((getLastVisibleReportAction ext st r ov).map firstPartHtml).getD "")) := rfl

/-- C6: a delivery of only loading actions, or one whose last non-loading
action lacks a `sequenceNumber`, leaves the whole Sequence Index unchanged
(in particular the entry for that report is never cleared). -/
theorem c6_loading_preserves_index (ext : Externals) (st : CoreState)
    (acts : List ReportAction) (key : Option String)
    (h : (∀ x ∈ acts, jsTruthy x.isLoading = true)
        ∨ ∃ a, acts.reverse.find? (fun x => ! jsTruthy x.isLoading) = some a
            ∧ a.sequenceNumber = none) :
    (onyxConnectCallback ext st (some acts) key).reportActionsMaxSequenceNumbers
      = st.reportActionsMaxSequenceNumbers := by
  cases key with
  | none => rfl
  | some k =>
    simp only [onyxConnectCallback]
    by_cases hk : k = ""
    · rw [if_pos hk]
    · rw [if_neg hk]
      rcases h with hall | ⟨a, hfind, hseq⟩
      · have hnone : acts.reverse.find? (fun x => ! jsTruthy x.isLoading) = none := by
          rw [List.find?_eq_none]
          intro x hx
          simp [hall x (List.mem_reverse.mp hx)]
        simp only [intGet_findLastIndex, hnone]
      · simp only [intGet_findLastIndex, hfind, hseq]

/-- C6 witness: a delivery of a single loading action on a state whose index
holds 3 leaves the index intact. -/
theorem c6_loading_preserves_index_witness :
    (onyxConnectCallback sampleExternals indexAt3State
        (some [⟨some 9, none, none, none, none, some true⟩])
        (some "r")).reportActionsMaxSequenceNumbers
      = indexAt3State.reportActionsMaxSequenceNumbers :=
  c6_loading_preserves_index sampleExternals indexAt3State _ _ (Or.inl (by decide))

/-- C7: an overlay never mutates the mirror: the queries return the module
state unchanged, and a subsequent overlay-free call yields the value
determined solely by the pre-overlay mirror state. -/
theorem c7_overlay_no_mutation (ext : Externals) (st : CoreState) (r : String) (ov : Overlay) :
    (runQueryLastText ext (runQueryLastText ext st r ov).2 r []).1
        = specLastVisibleMessageText ext st r []
      ∧ (runQueryLastAction ext (runQueryLastAction ext st r ov).2 r []).1
        = specLastVisibleAction ext ((st.reportActions r).getD []) []
      ∧ (runQueryLastText ext st r ov).2 = st
      ∧ (runQueryLastAction ext st r ov).2 = st :=
  ⟨lastVisibleMessageText_eq_spec ext st r [],
    lastVisibleReportAction_eq_spec ext st r [], rfl, rfl⟩

/-- C8: `updateReportActionMessage` issues a single merge patch on the
report's collection key mapping the sequence number to a partial action whose
`message` is the one-element sequence `[message]`; applying it sets that
entry's message (replacing the array, all other fields kept) and changes no
other entry. -/
theorem c8_updateReportActionMessage (r : String) (s : Nat) (m : MessagePart)
    (col : Nat → Option ReportAction) (n : Nat) :
    (updateReportActionMessage r s m).key = REPORT_ACTIONS_COLLECTION_KEY ++ r
      ∧ (updateReportActionMessage r s m).patch
          = [(s, some { message := some (some [m]) })]
      ∧ applyOnyxMergePatch col (updateReportActionMessage r s m).patch n
          = (if n = s then some (mergedMessageEntry (col s) m) else col n) := by
  refine ⟨rfl, rfl, ?_⟩
  simp only [updateReportActionMessage, applyOnyxMergePatch, List.foldl]
  by_cases hn : n = s
  · rw [if_pos hn, if_pos hn]
    cases hcs : col s <;>
      simp [hcs, applyOnyxActionPatch, patchToAction, mergedMessageEntry, patchField]
  · rw [if_neg hn, if_neg hn]

/-- C9: an `AddComment` action above the threshold whose `message` field is
entirely absent, or whose first message part lacks an `html` field, is counted
as deleted by `getDeletedCommentsCount`: its presence in the mirror raises the
count by exactly one. -/
theorem c9_defaulted_html_counts (st st2 : CoreState) (r : String) (t : Nat)
    (pre post : List ReportAction) (a : ReportAction)
    (h1 : st.reportActions r = some (pre ++ a :: post))
    (h2 : st2.reportActions r = some (pre ++ post))
    (h3 : a.actionName = some ADDCOMMENT)
    (h4 : ∃ s, a.sequenceNumber = some s ∧ t < s)
    (h5 : a.message = none ∨ ∃ p ps, a.message = some (p :: ps) ∧ p.html = none) :
    getDeletedCommentsCount st r t = getDeletedCommentsCount st2 r t + 1 := by
  have hc : amendedDeletedCondition t a = true := by
    rcases h4 with ⟨s, hs, hts⟩
    have hh : firstPartHtml a = "" := by
      rcases h5 with h5 | ⟨p, ps, hm, hp⟩
      · simp [firstPartHtml, h5]
      · simp [firstPartHtml, hm, hp]
    simp [amendedDeletedCondition, h3, hs, hts, hh]
  rw [getDeletedCommentsCount_eq_filter, getDeletedCommentsCount_eq_filter, h1, h2]
  simp [List.filter_append, List.filter_cons, hc]
  omega

/-- C9 witness: an `AddComment` at sequence 4 with no `message` raises the
count over threshold 0 from 0 to 1. -/
theorem c9_defaulted_html_counts_witness :
    getDeletedCommentsCount
        ⟨fun x => if x = "2"
            then some [⟨some 4, some ADDCOMMENT, none, none, none, none⟩] else none,
          fun _ => none⟩ "2" 0
      = getDeletedCommentsCount ⟨fun x => if x = "2" then some [] else none, fun _ => none⟩
          "2" 0 + 1 :=
  c9_defaulted_html_counts _ _ "2" 0 [] [] ⟨some 4, some ADDCOMMENT, none, none, none, none⟩
    (by decide) (by decide) rfl ⟨4, rfl, by decide⟩ (Or.inl rfl)

/-- C10: once the Sequence Index holds an entry for a report, any sequence of
core operations (callback deliveries, queries, mutations) leaves an entry
present for that report: the callback is the sole writer and only assigns. -/
theorem c10_index_entry_persists (ext : Externals) (st : CoreState) (ops : List CoreOp)
    (r : String) (h : (st.reportActionsMaxSequenceNumbers r).isSome = true) :
    ((ops.foldl (applyOp ext) st).reportActionsMaxSequenceNumbers r).isSome = true :=
  foldl_applyOp_preserves_index ext ops st r h

/-- C10 witness: a callback delivery followed by a mutation and a query keeps
the entry for report `"r"`. -/
theorem c10_index_entry_persists_witness :
    (indexAt3State.reportActionsMaxSequenceNumbers "r").isSome = true
      ∧ (([CoreOp.storeCallback (some [committedAt5]) (some "r"),
            CoreOp.deleteOptimistic "r" 5 (some PENDING_ACTION_ADD),
            CoreOp.deletedCount "r" 0].foldl
          (applyOp sampleExternals) indexAt3State).reportActionsMaxSequenceNumbers "r").isSome
        = true :=
  ⟨by decide,
    c10_index_entry_persists sampleExternals indexAt3State
      [CoreOp.storeCallback (some [committedAt5]) (some "r"),
        CoreOp.deleteOptimistic "r" 5 (some PENDING_ACTION_ADD),
        CoreOp.deletedCount "r" 0] "r" (by decide)⟩
